import Mathlib

/-!
Shallow embedding of `src/main.py` (tradingview-calendar): the keyword impact
classifier `determine_impact`, the TradingEconomics JSON adapter
`fetch_economic_calendar_data` (country-to-currency mapping, strptime date
parsing, per-item error isolation, time sort), the rule-based fallback
formatter of `format_with_ai`, and the `/calendar` endpoint result shape of
`get_economic_calendar`.

Python dictionaries coming from `response.json()` are modelled as association
lists of JSON-ish values (`JVal`); raising Python code is modelled with
`Option` (a raised exception inside the per-item `try` skips the item) and
`Except` (an exception type name). String operations are modelled over the
underlying character lists with structural recursion so every definition
evaluates by `rfl`/`decide`. ASCII-level fidelity: Python's `str.upper` is
modelled as ASCII uppercasing (every classifier keyword is ASCII), string
comparison is by code points exactly as in Python.
-/

/-- JSON-ish values appearing in upstream records. Numbers are modelled as
integers; floating point is out of scope for the claims below. -/
inductive JVal where
  | str (s : String)
  | num (n : Int)
  | null
  deriving DecidableEq

/-- A raw upstream record: a Python dict as an association list
(first binding for a key wins, as a dict has unique keys). -/
abbrev RawRecord := List (String × JVal)

/-- Python `d.get(k)` returning `None` as `none`: first binding for `k`. -/
def dictGetOpt (r : RawRecord) (k : String) : Option JVal :=
  (r.find? (fun p => p.1 == k)).map (fun p => p.2)

/-- Python `d.get(k, default)`. -/
def dictGetD (r : RawRecord) (k : String) (d : JVal) : JVal :=
  (dictGetOpt r k).getD d

/-- Python `str.upper()` restricted to ASCII (all classifier keywords and
mapped country names are ASCII). -/
def pyUpper (s : String) : String :=
  String.mk (s.data.map Char.toUpper)

/-- Does `p` occur as a contiguous sublist of the second argument? -/
def isSubList (p : List Char) : List Char → Bool
  | [] => p.isEmpty
  | c :: t => p.isPrefixOf (c :: t) || isSubList p t

/-- Python substring test `sub in hay`. -/
def containsSub (hay sub : String) : Bool :=
  isSubList sub.data hay.data

/-- `high_impact` keyword list from `determine_impact` (src/main.py line 104). -/
def high_impact : List String :=
  ["NFP", "CPI", "GDP", "PMI", "Rate", "Employment", "Interest"]

/-- `medium_impact` keyword list from `determine_impact` (src/main.py line 105). -/
def medium_impact : List String :=
  ["Retail", "Trade", "Manufacturing", "Consumer", "Production"]

/-- `determine_impact` (src/main.py lines 101-115): reads
`event.get('Event', '')`, uppercases it, scans the high-impact keyword list
first and the medium-impact list second (first match returns), defaulting to
the green marker. Python raises `AttributeError` when the value under
`'Event'` is present but not a string (no `.upper` on it); this is modelled
as `Except.error`. -/
def determine_impact (event : RawRecord) : Except String String :=
  match dictGetD event "Event" (JVal.str "") with
  | JVal.str name =>
    let event_name := pyUpper name
    match high_impact.find? (fun term => containsSub event_name (pyUpper term)) with
    | some _ => Except.ok "🔴"
    | none =>
      match medium_impact.find? (fun term => containsSub event_name (pyUpper term)) with
      | some _ => Except.ok "🟡"
      | none => Except.ok "🟢"
  | _ => Except.error "AttributeError"

/-- Split a character list at every occurrence of the separator `c`
(Python `str.split(sep)` for a one-character separator). -/
def splitOnChar (c : Char) : List Char → List (List Char)
  | [] => [[]]
  | x :: xs =>
    let r := splitOnChar c xs
    if x == c then [] :: r
    else
      match r with
      | h :: t => (x :: h) :: t
      | [] => [[x]]

/-- All characters are ASCII decimal digits. -/
def allDigits (l : List Char) : Bool :=
  l.all Char.isDigit

/-- A 1-or-2-digit numeric field, as accepted by CPython's strptime regex for
`%m`, `%d`, `%H`, `%M`, `%S`. -/
def comp2 (l : List Char) : Bool :=
  allDigits l && decide (1 ≤ l.length) && decide (l.length ≤ 2)

/-- Numeric value of a digit string. -/
def natOfDigits (l : List Char) : Nat :=
  l.foldl (fun a c => 10 * a + (c.toNat - 48)) 0

/-- Gregorian leap-year rule (as used by Python `datetime`). -/
def isLeap (y : Nat) : Bool :=
  (y % 4 == 0 && y % 100 != 0) || y % 400 == 0

/-- Days in a month, as validated by the Python `datetime` constructor. -/
def daysInMonth (y m : Nat) : Nat :=
  if m = 2 then (if isLeap y then 29 else 28)
  else if m = 4 ∨ m = 6 ∨ m = 9 ∨ m = 11 then 30
  else 31

/-- `datetime.strptime(s, "%Y-%m-%dT%H:%M:%S")` (src/main.py line 169):
a 4-digit year, 1-2 digit month/day/hour/minute/second fields with the
literal separators, validated by the `datetime` constructor (year at least 1,
month 1-12, day within the month, hour at most 23, minute and second at most
59). Returns the hour and minute of the parsed datetime, `none` on
`ValueError`. -/
def parseStrptime (s : String) : Option (Nat × Nat) :=
  match splitOnChar 'T' s.data with
  | [d, t] =>
    match splitOnChar '-' d, splitOnChar ':' t with
    | [y, mo, da], [h, mi, se] =>
      if decide (y.length = 4) && allDigits y && comp2 mo && comp2 da
          && comp2 h && comp2 mi && comp2 se then
        let yn := natOfDigits y
        let mon := natOfDigits mo
        let day := natOfDigits da
        let hn := natOfDigits h
        let minu := natOfDigits mi
        let sec := natOfDigits se
        if decide (1 ≤ yn) && decide (1 ≤ mon) && decide (mon ≤ 12)
            && decide (1 ≤ day) && decide (day ≤ daysInMonth yn mon)
            && decide (hn ≤ 23) && decide (minu ≤ 59) && decide (sec ≤ 59) then
          some (hn, minu)
        else none
      else none
    | _, _ => none
  | _ => none

/-- ASCII digit character. -/
def digitChar (n : Nat) : Char :=
  Char.ofNat (48 + n)

/-- Two-digit zero-padded rendering of a number below 100. -/
def pad2 (n : Nat) : List Char :=
  [digitChar (n / 10), digitChar (n % 10)]

/-- `event_time.strftime("%H:%M")` (src/main.py line 182). -/
def strftimeHM (h m : Nat) : String :=
  String.mk (pad2 h ++ [':'] ++ pad2 m)

/-- The closed currency set of the country-to-currency mapping. -/
def majorCurrencies : List String :=
  ["USD", "EUR", "GBP", "JPY", "AUD", "CAD", "CHF", "NZD"]

/-- `country[:3].upper()` (src/main.py line 166): the at-most-3-character
prefix of the raw country string, uppercased. -/
def prefix3Upper (c : String) : String :=
  String.mk ((c.data.take 3).map Char.toUpper)

/-- The country-to-currency mapping of src/main.py lines 147-166: substring
tests against known country names in source order, with the uppercased
3-character prefix as the fallback. -/
def mapCountry (country : String) : String :=
  if containsSub country "United States" then "USD"
  else if containsSub country "Euro Area" || containsSub country "European Union"
      || containsSub country "Germany" || containsSub country "France" then "EUR"
  else if containsSub country "United Kingdom" then "GBP"
  else if containsSub country "Japan" then "JPY"
  else if containsSub country "Australia" then "AUD"
  else if containsSub country "Canada" then "CAD"
  else if containsSub country "Switzerland" then "CHF"
  else if containsSub country "New Zealand" then "NZD"
  else prefix3Upper country

/-- Python `'  '`-to-`' '` replacement: `s.replace('  ', ' ')`, scanning left
to right over non-overlapping occurrences (src/main.py line 179). -/
def pyCollapse : List Char → List Char
  | ' ' :: ' ' :: rest => ' ' :: pyCollapse rest
  | c :: rest => c :: pyCollapse rest
  | [] => []

/-- Python `str.strip()` whitespace set (ASCII part). -/
def pySpace (c : Char) : Bool :=
  c == ' ' || c == '\t' || c == '\n' || c == '\x0b' || c == '\x0c' || c == '\r'

/-- Python `str.strip()`. -/
def pyStrip (s : String) : String :=
  String.mk (((s.data.dropWhile pySpace).reverse.dropWhile pySpace).reverse)

/-- `event['Event'].replace('  ', ' ').strip()` (src/main.py line 179). -/
def cleanEventName (s : String) : String :=
  pyStrip (String.mk (pyCollapse s.data))

/-- The dict appended to `events` for one processed record
(src/main.py lines 181-188). -/
structure CalEvent where
  time : String
  currency : String
  impact : String
  event : String
  actual : JVal
  forecast : JVal
  deriving DecidableEq

/-- The per-record body of the `for event in data` loop of
`fetch_economic_calendar_data` (src/main.py lines 140-197). Any raised
exception is caught by the per-item `except` and skips the record, modelled
as `none`: a non-string `Country` value (`in` test raises `TypeError`), a
missing or non-string `Date` (`KeyError`/`TypeError`), an unparseable `Date`
(`ValueError` from strptime), a non-string `Event` value (`AttributeError`
inside `determine_impact`), or a missing `Event` key (`KeyError` at
`event['Event']`). -/
def parseRecord (r : RawRecord) : Option CalEvent :=
  match dictGetD r "Country" (JVal.str "") with
  | JVal.str country =>
    let currency := mapCountry country
    match dictGetOpt r "Date" with
    | some (JVal.str ds) =>
      match parseStrptime ds with
      | some (h, m) =>
        match determine_impact r with
        | Except.ok impact =>
          let actual := dictGetD r "Actual" (JVal.str "N/A")
          let forecast := dictGetD r "Forecast" (JVal.str "N/A")
          match dictGetOpt r "Event" with
          | some (JVal.str ename) =>
            some { time := strftimeHM h m, currency := currency, impact := impact,
                   event := cleanEventName ename, actual := actual, forecast := forecast }
          | _ => none
        | Except.error _ => none
      | none => none
    | _ => none
  | _ => none

/-- Boolean code-point lexicographic order on character lists: exactly how
Python compares the `"HH:MM"` time strings in `events.sort(key=...)`. -/
def charListLe : List Char → List Char → Bool
  | [], _ => true
  | _ :: _, [] => false
  | a :: as, b :: bs =>
    if a.toNat < b.toNat then true
    else if b.toNat < a.toNat then false
    else charListLe as bs

/-- Strict code-point lexicographic order on character lists. -/
def charListLt : List Char → List Char → Bool
  | [], [] => false
  | [], _ :: _ => true
  | _ :: _, [] => false
  | a :: as, b :: bs =>
    if a.toNat < b.toNat then true
    else if b.toNat < a.toNat then false
    else charListLt as bs

/-- Python string `<=`. -/
def strLeB (a b : String) : Bool :=
  charListLe a.data b.data

/-- Python string `<`. -/
def strLtB (a b : String) : Bool :=
  charListLt a.data b.data

/-- Insert an element into an already-processed suffix, keeping it before
every element with an equal-or-later time: together with `sortByTime` this is
a stable sort by the `time` key, modelling Python's stable
`events.sort(key=lambda x: x['time'])` (src/main.py line 200). -/
def insertByTime (x : CalEvent) : List CalEvent → List CalEvent
  | [] => [x]
  | y :: ys => if strLeB x.time y.time then x :: y :: ys else y :: insertByTime x ys

/-- Stable sort by the `time` field (src/main.py line 200). -/
def sortByTime : List CalEvent → List CalEvent
  | [] => []
  | x :: xs => insertByTime x (sortByTime xs)

/-- The upstream interaction of one fetch: either the whole HTTP
request/JSON decode raises (transport failure, non-2xx status, malformed
body), or it yields a list of JSON records. -/
inductive Upstream where
  | failure
  | success (records : List RawRecord)

/-- `fetch_economic_calendar_data` (src/main.py lines 117-208) as a function
of the upstream interaction: on any whole-fetch exception the outer `except`
returns `[]`; on success every record is processed by the per-item loop body
(failing records skipped) and the result is stably sorted by time. -/
def fetch_economic_calendar_data : Upstream → List CalEvent
  | Upstream.failure => []
  | Upstream.success recs => sortByTime (recs.filterMap parseRecord)

/-- Python `str(v)` for the values stored under `actual`/`forecast`. -/
def pyStr (v : JVal) : String :=
  match v with
  | JVal.str s => s
  | JVal.num n => toString n
  | JVal.null => "None"

/-- One element of the list comprehension in the fallback branch of
`format_with_ai` (src/main.py lines 52-57): the f-string for one event. -/
def renderEvent (e : CalEvent) : String :=
  "🕒 " ++ e.time ++ " | " ++ e.currency ++ " | " ++ e.impact ++
  "\n📊 " ++ e.event ++
  "\n📈 Actual: " ++ pyStr e.actual ++ " | Forecast: " ++ pyStr e.forecast ++ "\n"

/-- Python `"\n".join`. -/
def joinNl : List String → String
  | [] => ""
  | [a] => a
  | a :: b :: t => a ++ "\n" ++ joinNl (b :: t)

/-- `format_with_ai` (src/main.py lines 47-99) on the deterministic paths:
with no OpenAI client configured (line 49) or on any OpenAI failure
(line 90) the function returns the rule-based fallback text, which is the
contract of record. -/
def format_with_ai (events : List CalEvent) : String :=
  joinNl (events.map renderEvent)

/-- The JSON body returned by the `/calendar` route. -/
structure CalResult where
  status : String
  events : List String
  deriving DecidableEq

/-- `get_economic_calendar` (src/main.py lines 210-227): fetch, return the
sentinel payload when the event list is empty (`if not events`), otherwise
the single formatted text block. -/
def get_economic_calendar (u : Upstream) : CalResult :=
  let events := fetch_economic_calendar_data u
  if events.isEmpty then
    { status := "success", events := ["No economic events found for today."] }
  else
    { status := "success", events := [format_with_ai events] }

/-- Spec-side predicate: the uppercased headline contains some high-impact
term (case-insensitive substring test). -/
def hasHighTerm (s : String) : Bool :=
  high_impact.any (fun term => containsSub (pyUpper s) (pyUpper term))

/-- Spec-side predicate: the uppercased headline contains some medium-impact
term (case-insensitive substring test). -/
def hasMediumTerm (s : String) : Bool :=
  medium_impact.any (fun term => containsSub (pyUpper s) (pyUpper term))

/-- Index of the first occurrence of `p` as a contiguous sublist. -/
def subIdx (p : List Char) : List Char → Option Nat
  | [] => if p.isEmpty then some 0 else none
  | c :: t => if p.isPrefixOf (c :: t) then some 0 else (subIdx p t).map (fun n => n + 1)

/-- Character index of the first occurrence of `sub` inside `hay`. -/
def strIdxOf (hay sub : String) : Option Nat :=
  subIdx sub.data hay.data

/-- A relation for sortedness statements: the `time` keys compare as Python
string `<=`. -/
def timeLe (a b : CalEvent) : Prop :=
  strLeB a.time b.time = true

/-- A well-formed upstream record: a US record with all fields present. -/
def rGoodA : RawRecord :=
  [("Country", JVal.str "United States"), ("Date", JVal.str "2026-10-12T14:30:00"),
   ("Event", JVal.str "Core PCE Price Index"), ("Actual", JVal.str "2.6%"),
   ("Forecast", JVal.str "2.5%")]

/-- A well-formed upstream record: a German record without actual/forecast. -/
def rGoodB : RawRecord :=
  [("Country", JVal.str "Germany"), ("Date", JVal.str "2026-10-12T09:00:00"),
   ("Event", JVal.str "ECB Guindos Speech")]

/-- A malformed upstream record: the `Date` key is missing, so the per-item
loop body raises `KeyError` and the record is skipped. -/
def rBadC3 : RawRecord :=
  [("Country", JVal.str "Japan"), ("Event", JVal.str "Jibun Bank")]

/-- An upstream record whose `Event` string is blank: every field the loop
body needs is present and parses, but the cleaned headline is empty. -/
def rEmptyEvent : RawRecord :=
  [("Country", JVal.str "United States"), ("Date", JVal.str "2026-10-12T13:30:00"),
   ("Event", JVal.str " ")]

/-- An upstream record carrying importance score 90 and a headline with no
classifier keyword. -/
def rImp90 : RawRecord :=
  [("Importance", JVal.num 90), ("Country", JVal.str "United States"),
   ("Date", JVal.str "2026-10-12T13:30:00"), ("Event", JVal.str "Bank Holiday")]

/-- Identical to `rImp90` except the importance score is 10. -/
def rImp10 : RawRecord :=
  [("Importance", JVal.num 10), ("Country", JVal.str "United States"),
   ("Date", JVal.str "2026-10-12T13:30:00"), ("Event", JVal.str "Bank Holiday")]

/-- An upstream record for an event at 00:01, far earlier than a late-day
"now" cursor. -/
def rPast : RawRecord :=
  [("Country", JVal.str "Japan"), ("Date", JVal.str "2026-10-12T00:01:00"),
   ("Event", JVal.str "Machinery Orders")]

/-- The canonical event produced from `rGoodA`. -/
def evGoodA : CalEvent :=
  { time := "14:30", currency := "USD", impact := "🟢", event := "Core PCE Price Index",
    actual := JVal.str "2.6%", forecast := JVal.str "2.5%" }

/-- The canonical event produced from `rGoodB`. -/
def evGoodB : CalEvent :=
  { time := "09:00", currency := "EUR", impact := "🟢", event := "ECB Guindos Speech",
    actual := JVal.str "N/A", forecast := JVal.str "N/A" }

/-- The canonical event produced from `rPast`. -/
def evPast : CalEvent :=
  { time := "00:01", currency := "JPY", impact := "🟢", event := "Machinery Orders",
    actual := JVal.str "N/A", forecast := JVal.str "N/A" }

/-- A USD event at 09:00, used to exercise the formatter's ordering. -/
def evUSD9 : CalEvent :=
  { time := "09:00", currency := "USD", impact := "🟢", event := "Fed Speech",
    actual := JVal.str "N/A", forecast := JVal.str "N/A" }

/-- An EUR event at 14:30, used to exercise the formatter's ordering. -/
def evEUR14 : CalEvent :=
  { time := "14:30", currency := "EUR", impact := "🟢", event := "ECB Speech",
    actual := JVal.str "N/A", forecast := JVal.str "N/A" }

/-- The EUR event of the spec's concrete formatter scenario. -/
def evECB : CalEvent :=
  { time := "09:00", currency := "EUR", impact := "🟢", event := "ECB Speech",
    actual := JVal.str "N/A", forecast := JVal.str "N/A" }

/-- The USD event of the spec's concrete formatter scenario. -/
def evPCE : CalEvent :=
  { time := "14:30", currency := "USD", impact := "🟢", event := "Core PCE",
    actual := JVal.str "N/A", forecast := JVal.str "N/A" }

/-- Unfolding equation of `charListLe` at two cons cells. -/
theorem charListLe_cons (a b : Char) (as bs : List Char) :
    charListLe (a :: as) (b :: bs) =
      if a.toNat < b.toNat then true
      else if b.toNat < a.toNat then false
      else charListLe as bs := rfl

/-- Membership through `insertByTime`. -/
theorem mem_insertByTime (a x : CalEvent) :
    ∀ l : List CalEvent, a ∈ insertByTime x l ↔ a = x ∨ a ∈ l := by
  intro l
  induction l with
  | nil => simp [insertByTime]
  | cons y ys ih =>
    unfold insertByTime
    by_cases h : strLeB x.time y.time = true
    · rw [if_pos h]
      simp
    · rw [if_neg h]
      simp only [List.mem_cons, ih]
      tauto

/-- Membership through `sortByTime`. -/
theorem mem_sortByTime (a : CalEvent) :
    ∀ l : List CalEvent, a ∈ sortByTime l ↔ a ∈ l := by
  intro l
  induction l with
  | nil => simp [sortByTime]
  | cons x xs ih =>
    unfold sortByTime
    rw [mem_insertByTime, ih, List.mem_cons]

/-- `charListLe` is reflexive. -/
theorem charListLe_refl : ∀ l : List Char, charListLe l l = true := by
  intro l
  induction l with
  | nil => rfl
  | cons a as ih => rw [charListLe_cons]; simp [ih]

/-- Head characterization of `charListLe`. -/
theorem charListLe_cons_iff (a b : Char) (as bs : List Char) :
    charListLe (a :: as) (b :: bs) = true ↔
      (a.toNat < b.toNat ∨ (a.toNat = b.toNat ∧ charListLe as bs = true)) := by
  rw [charListLe_cons]
  by_cases h1 : a.toNat < b.toNat
  · simp [h1]
  · by_cases h2 : b.toNat < a.toNat
    · have h3 : a.toNat ≠ b.toNat := by omega
      simp [h1, h2, h3]
    · have h3 : a.toNat = b.toNat := by omega
      simp [h1, h2, h3]

/-- `charListLe` is total. -/
theorem charListLe_total :
    ∀ as bs : List Char, charListLe as bs = true ∨ charListLe bs as = true := by
  intro as
  induction as with
  | nil => intro bs; left; rfl
  | cons a as ih =>
    intro bs
    cases bs with
    | nil => right; rfl
    | cons b bs =>
      rcases Nat.lt_trichotomy a.toNat b.toNat with h | h | h
      · left; rw [charListLe_cons_iff]; exact Or.inl h
      · rcases ih bs with h1 | h1
        · left; rw [charListLe_cons_iff]; exact Or.inr ⟨h, h1⟩
        · right; rw [charListLe_cons_iff]; exact Or.inr ⟨h.symm, h1⟩
      · right; rw [charListLe_cons_iff]; exact Or.inl h

/-- `charListLe` is transitive. -/
theorem charListLe_trans :
    ∀ as bs cs : List Char, charListLe as bs = true → charListLe bs cs = true →
      charListLe as cs = true := by
  intro as
  induction as with
  | nil => intro bs cs _ _; rfl
  | cons a as ih =>
    intro bs cs h1 h2
    cases bs with
    | nil => simp [charListLe] at h1
    | cons b bs =>
      cases cs with
      | nil => simp [charListLe] at h2
      | cons c cs =>
        rw [charListLe_cons_iff] at h1 h2 ⊢
        rcases h1 with h1 | ⟨h1e, h1r⟩ <;> rcases h2 with h2 | ⟨h2e, h2r⟩
        · exact Or.inl (Nat.lt_trans h1 h2)
        · exact Or.inl (by omega)
        · exact Or.inl (by omega)
        · exact Or.inr ⟨by omega, ih bs cs h1r h2r⟩

/-- Totality of `strLeB`, phrased for the `else` branch of `insertByTime`. -/
theorem strLeB_of_not (a b : String) (h : strLeB a b = false) : strLeB b a = true := by
  rcases charListLe_total a.data b.data with h1 | h1
  · rw [strLeB] at h
    rw [h] at h1
    exact absurd h1 (by simp)
  · exact h1

/-- Transitivity of `strLeB`. -/
theorem strLeB_trans (a b c : String) (h1 : strLeB a b = true) (h2 : strLeB b c = true) :
    strLeB a c = true :=
  charListLe_trans a.data b.data c.data h1 h2

/-- A failed `strLeB` comparison separates the strings. -/
theorem ne_of_strLeB_false (a b : String) (h : strLeB a b = false) : a ≠ b := by
  intro he
  subst he
  rw [strLeB, charListLe_refl] at h
  exact absurd h (by simp)

/-- `insertByTime` preserves sortedness. -/
theorem pairwise_insertByTime (x : CalEvent) :
    ∀ l : List CalEvent, List.Pairwise timeLe l → List.Pairwise timeLe (insertByTime x l) := by
  intro l
  induction l with
  | nil => intro _; simp [insertByTime]
  | cons y ys ih =>
    intro h
    rw [List.pairwise_cons] at h
    obtain ⟨hy, hys⟩ := h
    unfold insertByTime
    by_cases hxy : strLeB x.time y.time = true
    · rw [if_pos hxy]
      rw [List.pairwise_cons]
      refine ⟨?_, List.pairwise_cons.mpr ⟨hy, hys⟩⟩
      intro z hz
      rcases List.mem_cons.mp hz with rfl | hz'
      · exact hxy
      · exact strLeB_trans x.time y.time z.time hxy (hy z hz')
    · have hxy' : strLeB x.time y.time = false := by
        cases hb : strLeB x.time y.time
        · rfl
        · exact absurd hb hxy
      rw [if_neg hxy]
      rw [List.pairwise_cons]
      refine ⟨?_, ih hys⟩
      intro z hz
      rcases (mem_insertByTime z x ys).mp hz with hzx | hz'
      · rw [hzx]
        exact strLeB_of_not x.time y.time hxy'
      · exact hy z hz'

/-- `sortByTime` sorts: pairwise ordering by the time key. -/
theorem pairwise_sortByTime : ∀ l : List CalEvent, List.Pairwise timeLe (sortByTime l) := by
  intro l
  induction l with
  | nil => simp [sortByTime]
  | cons x xs ih => exact pairwise_insertByTime x (sortByTime xs) ih

/-- `insertByTime` is stable: filtering on any time key commutes with the
insertion, the inserted element landing in front of the kept suffix. -/
theorem filter_insertByTime (x : CalEvent) (t : String) :
    ∀ l : List CalEvent,
      (insertByTime x l).filter (fun e => e.time == t) =
        if x.time == t then x :: l.filter (fun e => e.time == t)
        else l.filter (fun e => e.time == t) := by
  intro l
  induction l with
  | nil =>
    unfold insertByTime
    cases hxt : (x.time == t) with
    | true => simp [List.filter_cons, List.filter_nil, hxt]
    | false => simp [List.filter_cons, List.filter_nil, hxt]
  | cons y ys ih =>
    unfold insertByTime
    by_cases hxy : strLeB x.time y.time = true
    · rw [if_pos hxy]
      cases hxt : (x.time == t) with
      | true => simp [List.filter_cons, hxt]
      | false => simp [List.filter_cons, hxt]
    · have hxy' : strLeB x.time y.time = false := by
        cases hb : strLeB x.time y.time
        · rfl
        · exact absurd hb hxy
      rw [if_neg hxy]
      cases hxt : (x.time == t) with
      | true =>
        have hxteq : x.time = t := eq_of_beq hxt
        have hyt : (y.time == t) = false := by
          have hne : y.time ≠ t := by
            intro he
            exact ne_of_strLeB_false x.time y.time hxy' (by rw [hxteq, he])
          exact beq_eq_false_iff_ne.mpr hne
        simp [List.filter_cons, hyt, hxt, ih]
      | false =>
        simp [List.filter_cons, ih, hxt]

/-- `sortByTime` is stable: the events carrying any fixed time key appear in
the sorted output in exactly their arrival order. -/
theorem filter_sortByTime (t : String) :
    ∀ l : List CalEvent,
      (sortByTime l).filter (fun e => e.time == t) = l.filter (fun e => e.time == t) := by
  intro l
  induction l with
  | nil => rfl
  | cons x xs ih =>
    unfold sortByTime
    rw [filter_insertByTime, ih, List.filter_cons]

/-- A successful strptime parse yields a valid hour and minute. -/
theorem parseStrptime_le (ds : String) (h m : Nat)
    (hp : parseStrptime ds = some (h, m)) : h ≤ 23 ∧ m ≤ 59 := by
  unfold parseStrptime at hp
  split at hp
  · split at hp
    · split at hp
      · dsimp only at hp
        split at hp
        · rename_i hguard
          simp only [Bool.and_eq_true, decide_eq_true_eq] at hguard
          simp only [Option.some.injEq, Prod.mk.injEq] at hp
          obtain ⟨rfl, rfl⟩ := hp
          omega
        · exact absurd hp (by simp)
      · exact absurd hp (by simp)
    · exact absurd hp (by simp)
  · exact absurd hp (by simp)

/-- The currency produced by the country mapping is a closed-set member or
the uppercased at-most-3-character prefix of the country string. -/
theorem mapCountry_mem_or (c : String) :
    mapCountry c ∈ majorCurrencies ∨ mapCountry c = prefix3Upper c := by
  unfold mapCountry
  repeat' split
  all_goals first
    | (left; decide)
    | (right; rfl)

/-- A non-raising run of the classifier returns one of the three markers. -/
theorem determine_impact_mem (r : RawRecord) (i : String)
    (h : determine_impact r = Except.ok i) : i ∈ ["🔴", "🟡", "🟢"] := by
  unfold determine_impact at h
  split at h
  · dsimp only at h
    split at h
    · simp only [Except.ok.injEq] at h
      subst h
      decide
    · split at h
      · simp only [Except.ok.injEq] at h
        subst h
        decide
      · simp only [Except.ok.injEq] at h
        subst h
        decide
  · exact absurd h (by simp)

/-- Shape of every event a successful per-record parse produces: the time is
a zero-padded valid HH:MM rendering, the currency comes from the country
mapping applied to the record's `Country` string, and the headline is the
cleaned raw `Event` string (with no non-emptiness guarantee). -/
theorem parseRecord_shape (r : RawRecord) (e : CalEvent)
    (hp : parseRecord r = some e) :
    (∃ h m, h ≤ 23 ∧ m ≤ 59 ∧ e.time = strftimeHM h m) ∧
    (∃ c, dictGetD r "Country" (JVal.str "") = JVal.str c ∧
      (e.currency ∈ majorCurrencies ∨ e.currency = prefix3Upper c)) ∧
    (∃ s, dictGetOpt r "Event" = some (JVal.str s) ∧ e.event = cleanEventName s) := by
  unfold parseRecord at hp
  split at hp
  case _ country heqc =>
    split at hp
    case _ ds heqd =>
      split at hp
      case _ hh hmm heqt =>
        split at hp
        case _ impact heqi =>
          split at hp
          case _ ename heqe =>
            simp only [Option.some.injEq] at hp
            subst hp
            obtain ⟨hb1, hb2⟩ := parseStrptime_le ds hh hmm heqt
            refine ⟨⟨hh, hmm, hb1, hb2, rfl⟩, ⟨country, heqc, ?_⟩, ⟨ename, heqe, rfl⟩⟩
            exact mapCountry_mem_or country
          case _ => exact absurd hp (by simp)
        case _ err heqi => exact absurd hp (by simp)
      case _ heqt => exact absurd hp (by simp)
    case _ heqd => exact absurd hp (by simp)
  case _ heqc => exact absurd hp (by simp)

/-- The impact of every parsed event is the classifier's verdict on the raw
record. -/
theorem parseRecord_impact (r : RawRecord) (e : CalEvent)
    (hp : parseRecord r = some e) : determine_impact r = Except.ok e.impact := by
  unfold parseRecord at hp
  split at hp
  case _ country heqc =>
    split at hp
    case _ ds heqd =>
      split at hp
      case _ hh hmm heqt =>
        split at hp
        case _ impact heqi =>
          split at hp
          case _ ename heqe =>
            simp only [Option.some.injEq] at hp
            subst hp
            exact heqi
          case _ => exact absurd hp (by simp)
        case _ err heqi => exact absurd hp (by simp)
      case _ heqt => exact absurd hp (by simp)
    case _ heqd => exact absurd hp (by simp)
  case _ heqc => exact absurd hp (by simp)

/-- Claim C1: the keyword classifier scans the uppercased headline against
the high-impact terms before the medium-impact terms, matching
case-insensitively by substring with the first matching set winning; a
headline containing "GDP" is classified high (red marker), "Retail Sales"
with no high-impact term is classified medium (yellow marker), and a
headline matching neither set is classified low (green marker), never
none. -/
theorem C1_theorem :
    (∀ (r : RawRecord) (s : String),
      dictGetD r "Event" (JVal.str "") = JVal.str s →
      determine_impact r =
        Except.ok (if hasHighTerm s then "🔴" else if hasMediumTerm s then "🟡" else "🟢")) ∧
    determine_impact [("Event", JVal.str "Eurozone GDP")] = Except.ok "🔴" ∧
    determine_impact [("Event", JVal.str "Retail Sales")] = Except.ok "🟡" ∧
    determine_impact [("Event", JVal.str "Bank Holiday")] = Except.ok "🟢" := by
  refine ⟨?_, rfl, rfl, rfl⟩
  intro r s h
  unfold determine_impact
  rw [h]
  dsimp only
  cases hf : high_impact.find? (fun term => containsSub (pyUpper s) (pyUpper term)) with
  | some a =>
    have hh : hasHighTerm s = true := by
      unfold hasHighTerm
      rw [List.any_eq_true]
      refine ⟨a, List.mem_of_find?_eq_some hf, ?_⟩
      have hpa := List.find?_some hf
      simpa using hpa
    rw [hh]
    rfl
  | none =>
    have hh : hasHighTerm s = false := by
      unfold hasHighTerm
      rw [List.any_eq_false]
      intro x hx
      simpa using List.find?_eq_none.mp hf x hx
    rw [hh]
    cases hm : medium_impact.find? (fun term => containsSub (pyUpper s) (pyUpper term)) with
    | some a =>
      have hmm : hasMediumTerm s = true := by
        unfold hasMediumTerm
        rw [List.any_eq_true]
        refine ⟨a, List.mem_of_find?_eq_some hm, ?_⟩
        have hpa := List.find?_some hm
        simpa using hpa
      rw [hmm]
      rfl
    | none =>
      have hmm : hasMediumTerm s = false := by
        unfold hasMediumTerm
        rw [List.any_eq_false]
        intro x hx
        simpa using List.find?_eq_none.mp hm x hx
      rw [hmm]
      rfl

/-- Witness for C1: the general classifier characterization applied at the
concrete headline "US GDP Growth Rate", whose uppercase form contains
"GDP". -/
theorem C1_witness :
    determine_impact [("Event", JVal.str "US GDP Growth")] = Except.ok "🔴" := by
  have h := C1_theorem.1 [("Event", JVal.str "US GDP Growth")] "US GDP Growth" rfl
  exact h

/-- Claim C2: if the aggregation stage yields zero events, the calendar read
returns a success result whose events field is the single-element array
containing exactly the sentinel string. -/
theorem C2_theorem (u : Upstream)
    (h : fetch_economic_calendar_data u = []) :
    get_economic_calendar u =
      { status := "success", events := ["No economic events found for today."] } := by
  unfold get_economic_calendar
  rw [h]
  rfl

/-- Witness for C2: a failing upstream yields zero events, and the endpoint
answers with the sentinel payload. -/
theorem C2_witness :
    get_economic_calendar Upstream.failure =
      { status := "success", events := ["No economic events found for today."] } :=
  C2_theorem Upstream.failure rfl

/-- Claim C3: a transport or whole-upstream failure makes the adapter return
an empty event list rather than raising, and a failure to parse a single
record skips only that record while every remaining record of the same
response is still processed into the result. -/
theorem C3_theorem :
    fetch_economic_calendar_data Upstream.failure = [] ∧
    ∀ (pre post : List RawRecord) (bad : RawRecord),
      parseRecord bad = none →
      fetch_economic_calendar_data (Upstream.success (pre ++ bad :: post)) =
        fetch_economic_calendar_data (Upstream.success (pre ++ post)) := by
  refine ⟨rfl, ?_⟩
  intro pre post bad h
  simp [fetch_economic_calendar_data, List.filterMap_append, List.filterMap_cons, h]

/-- Witness for C3: dropping a concrete record with no `Date` key from the
middle of a batch leaves the fetch result of the surrounding records
unchanged. -/
theorem C3_witness :
    parseRecord rBadC3 = none ∧
    fetch_economic_calendar_data (Upstream.success [rGoodA, rBadC3, rGoodB]) =
      fetch_economic_calendar_data (Upstream.success [rGoodA, rGoodB]) :=
  ⟨rfl, C3_theorem.2 [rGoodA] [rGoodB] rBadC3 rfl⟩

/-- Counterexample for C4: the record `rEmptyEvent` (country United States,
valid date, `Event` field a single blank) is fully processed, and the one
event the adapter returns has an empty headline — the non-empty-headline
invariant of the claim fails. -/
theorem C4_counterexample :
    (fetch_economic_calendar_data (Upstream.success [rEmptyEvent])).map CalEvent.event
      = [""] := rfl

/-- Claim C4 (amended): every event returned by the adapter comes from a
successfully parsed record, with a time that is a valid zero-padded HH:MM
rendering and a currency that is either in the closed major set or the
uppercased at-most-3-character prefix of the record's raw country string;
the headline is the cleaned raw `Event` string but may be empty. -/
theorem C4_theorem (recs : List RawRecord) (e : CalEvent)
    (he : e ∈ fetch_economic_calendar_data (Upstream.success recs)) :
    ∃ r ∈ recs, parseRecord r = some e ∧
      (∃ h m, h ≤ 23 ∧ m ≤ 59 ∧ e.time = strftimeHM h m) ∧
      (∃ c, dictGetD r "Country" (JVal.str "") = JVal.str c ∧
        (e.currency ∈ majorCurrencies ∨ e.currency = prefix3Upper c)) ∧
      (∃ s, dictGetOpt r "Event" = some (JVal.str s) ∧ e.event = cleanEventName s) := by
  unfold fetch_economic_calendar_data at he
  rw [mem_sortByTime] at he
  obtain ⟨r, hr, hp⟩ := List.mem_filterMap.mp he
  obtain ⟨h1, h2, h3⟩ := parseRecord_shape r e hp
  exact ⟨r, hr, hp, h1, h2, h3⟩

/-- Witness for C4: the amended invariant instantiated at the singleton
batch `[rGoodA]` and its parsed event. -/
theorem C4_witness :
    ∃ r ∈ [rGoodA], parseRecord r = some evGoodA ∧
      (∃ h m, h ≤ 23 ∧ m ≤ 59 ∧ evGoodA.time = strftimeHM h m) ∧
      (∃ c, dictGetD r "Country" (JVal.str "") = JVal.str c ∧
        (evGoodA.currency ∈ majorCurrencies ∨ evGoodA.currency = prefix3Upper c)) ∧
      (∃ s, dictGetOpt r "Event" = some (JVal.str s) ∧ evGoodA.event = cleanEventName s) :=
  C4_theorem [rGoodA] evGoodA (List.Mem.head _)

/-- Claim C5: the event list produced by the adapter is sorted by time
ascending (Python string comparison on the zero-padded HH:MM keys), and
events whose time fields are equal keep their source-arrival order — the
events of any fixed time key appear in exactly the order the records were
parsed. -/
theorem C5_theorem (recs : List RawRecord) :
    List.Pairwise timeLe (fetch_economic_calendar_data (Upstream.success recs)) ∧
    ∀ t : String,
      (fetch_economic_calendar_data (Upstream.success recs)).filter (fun e => e.time == t) =
        (recs.filterMap parseRecord).filter (fun e => e.time == t) := by
  unfold fetch_economic_calendar_data
  exact ⟨pairwise_sortByTime _, fun t => filter_sortByTime t _⟩

/-- Counterexample for C6: two records identical except for their
`Importance` score (90 versus 10) both come out with the low/green impact
marker, although the claim requires a score of 90 to map to high; the
adapter's impact does not depend on the importance score. -/
theorem C6_counterexample :
    dictGetOpt rImp90 "Importance" = some (JVal.num 90) ∧
    (parseRecord rImp90).map CalEvent.impact = some "🟢" ∧
    dictGetOpt rImp10 "Importance" = some (JVal.num 10) ∧
    (parseRecord rImp10).map CalEvent.impact = some "🟢" :=
  ⟨rfl, rfl, rfl, rfl⟩

/-- Claim C6 (amended): the adapter ignores any upstream importance score;
the impact of every parsed event is exactly the keyword classifier's verdict
on the record's `Event` name, and is always one of the three markers. -/
theorem C6_theorem (r : RawRecord) (e : CalEvent)
    (hp : parseRecord r = some e) :
    determine_impact r = Except.ok e.impact ∧ e.impact ∈ ["🔴", "🟡", "🟢"] := by
  have h1 := parseRecord_impact r e hp
  exact ⟨h1, determine_impact_mem r e.impact h1⟩

/-- Witness for C6: the keyword-derived impact of the concrete record
`rGoodA`. -/
theorem C6_witness :
    determine_impact rGoodA = Except.ok evGoodA.impact ∧
      evGoodA.impact ∈ ["🔴", "🟡", "🟢"] :=
  C6_theorem rGoodA evGoodA rfl

/-- Claim C7: with the deterministic fallback formatter (the contract of
record when no summarizer credential is configured), the composition of
adapter, sort, merge and formatting is a function of the upstream payload:
two runs with identical upstream interactions produce identical results,
byte for byte. -/
theorem C7_theorem (u v : Upstream) (h : u = v) :
    get_economic_calendar u = get_economic_calendar v := by
  rw [h]

/-- Witness for C7: two runs over the same concrete two-record payload
agree. -/
theorem C7_witness :
    get_economic_calendar (Upstream.success [rGoodA, rGoodB]) =
      get_economic_calendar (Upstream.success [rGoodA, rGoodB]) :=
  C7_theorem (Upstream.success [rGoodA, rGoodB]) (Upstream.success [rGoodA, rGoodB]) rfl

/-- Counterexample for C8: for a USD event at 09:00 followed by an EUR event
at 14:30, the rendered text mentions "USD" (character index 10) strictly
before "EUR" (character index 72): the EUR group does not precede the USD
group, so the output is not grouped alphabetically by currency code. -/
theorem C8_counterexample :
    strIdxOf (format_with_ai [evUSD9, evEUR14]) "USD" = some 10 ∧
    strIdxOf (format_with_ai [evUSD9, evEUR14]) "EUR" = some 72 ∧
    10 < 72 :=
  ⟨rfl, rfl, by omega⟩

/-- Claim C8 (amended): the rule-based fallback formatter performs no
grouping by currency and emits no group header lines; it renders one fixed
three-line block per event in the order of the (time-sorted) input list. In
the claim's concrete scenario the EUR block precedes the USD block only
because 09:00 sorts before 14:30. -/
theorem C8_theorem :
    (∀ (e : CalEvent) (es : List CalEvent),
      format_with_ai (e :: es) =
        renderEvent e ++ (if es.isEmpty then "" else "\n" ++ format_with_ai es)) ∧
    format_with_ai [evECB, evPCE] = renderEvent evECB ++ "\n" ++ renderEvent evPCE := by
  constructor
  · intro e es
    cases es with
    | nil =>
      show renderEvent e = renderEvent e ++ ""
      exact (String.append_empty _).symm
    | cons b t =>
      show renderEvent e ++ "\n" ++ format_with_ai (b :: t) =
        renderEvent e ++ ("\n" ++ format_with_ai (b :: t))
      exact String.append_assoc _ _ _
  · rfl

/-- Counterexample for C9: the adapter keeps an event at 00:01 even against
a "now" cursor of 23:59 — events strictly before "now" are not dropped. -/
theorem C9_counterexample :
    evPast ∈ fetch_economic_calendar_data (Upstream.success [rPast]) ∧
    strLtB evPast.time "23:59" = true :=
  ⟨List.Mem.head _, rfl⟩

/-- Claim C9 (amended): the aggregation stage performs no filtering against
a "now" cursor: every successfully parsed record's event appears in the
returned list regardless of its time of day. -/
theorem C9_theorem (recs : List RawRecord) (r : RawRecord) (e : CalEvent)
    (hr : r ∈ recs) (hp : parseRecord r = some e) :
    e ∈ fetch_economic_calendar_data (Upstream.success recs) := by
  unfold fetch_economic_calendar_data
  rw [mem_sortByTime]
  exact List.mem_filterMap.mpr ⟨r, hr, hp⟩

/-- Witness for C9: the parsed event of `rGoodB` is in the fetch result of
the singleton batch `[rGoodB]`. -/
theorem C9_witness :
    evGoodB ∈ fetch_economic_calendar_data (Upstream.success [rGoodB]) :=
  C9_theorem [rGoodB] rGoodB evGoodB (List.Mem.head _) rfl

/-- Counterexample for C10: on a dictionary whose `Event` value is the
number 42, `determine_impact` raises `AttributeError` (`42 .upper()` does
not exist), so it is not total on arbitrary dictionaries. -/
theorem C10_counterexample :
    determine_impact [("Event", JVal.num 42)] = Except.error "AttributeError" := rfl

/-- Claim C10 (amended): `determine_impact` reads only the `Event` key (its
result is determined by that binding alone); a dictionary with no `Event`
key is treated as an empty headline and classified low (green marker); and
whenever the `Event` value is a string the function returns normally with
one of the three markers. It raises only on a present, non-string `Event`
value. -/
theorem C10_theorem (r : RawRecord) :
    (∀ r2 : RawRecord, dictGetOpt r "Event" = dictGetOpt r2 "Event" →
      determine_impact r = determine_impact r2) ∧
    (dictGetOpt r "Event" = none → determine_impact r = Except.ok "🟢") ∧
    (∀ s : String, dictGetOpt r "Event" = some (JVal.str s) →
      determine_impact r = Except.ok "🔴" ∨ determine_impact r = Except.ok "🟡" ∨
        determine_impact r = Except.ok "🟢") := by
  refine ⟨?_, ?_, ?_⟩
  · intro r2 h
    unfold determine_impact dictGetD
    rw [h]
  · intro h
    unfold determine_impact dictGetD
    rw [h]
    rfl
  · intro s h
    unfold determine_impact dictGetD
    rw [h]
    dsimp only [Option.getD]
    cases hf : high_impact.find? (fun term => containsSub (pyUpper s) (pyUpper term)) with
    | some a =>
      left
      rfl
    | none =>
      cases hm : medium_impact.find? (fun term => containsSub (pyUpper s) (pyUpper term)) with
      | some a =>
        right; left
        rfl
      | none =>
        right; right
        rfl

/-- Witness for C10: the empty dictionary has no `Event` key and is
classified with the green marker. -/
theorem C10_witness : determine_impact [] = Except.ok "🟢" :=
  (C10_theorem []).2.1 rfl
